import Mathlib

/-!
Verification model of the calyx server profiler's security-critical core:
the hardened TGZ extractor (path sanitizer, ustar header decoder, extraction
loop with quotas), the disk-benchmark open-mode fallback, the subprocess
pipe exit handling, and the speed-test error synthesis.

Bytes are modelled as `Nat` (values 0..255); byte strings as `List Nat`.
Filesystem paths are modelled as lists of path components (`List (List Nat)`);
the destination directory is an abstract component list.  Machine integers
are `Nat` with an explicit `% 2 ^ w` where the source uses wrapping
unsigned arithmetic.
-/

namespace Calyx

namespace Config

def TGZ_MAX_FILE_SIZE : Nat := 100 * 1024 * 1024
def TGZ_MAX_TOTAL_SIZE : Nat := 500 * 1024 * 1024
def TGZ_MAX_FILES : Nat := 10000
def TGZ_MAX_PATH_DEPTH : Nat := 20
def TGZ_MAX_PATH_LENGTH : Nat := 255
def TGZ_MAX_TOTAL_PATH_LENGTH : Nat := 4096
def TAR_BLOCK_SIZE : Nat := 512
def TAR_NAME_OFFSET : Nat := 0
def TAR_NAME_LENGTH : Nat := 100
def TAR_SIZE_OFFSET : Nat := 124
def TAR_SIZE_LENGTH : Nat := 12
def TAR_CHECKSUM_OFFSET : Nat := 148
def TAR_CHECKSUM_LENGTH : Nat := 8
def TAR_TYPE_OFFSET : Nat := 156
def TAR_PREFIX_OFFSET : Nat := 345
def TAR_PREFIX_LENGTH : Nat := 155

end Config

/-- `std::string_view::find(pat) != npos`: `pat` occurs contiguously in `s`. -/
def hasInfix (pat : List Nat) : List Nat → Bool
  | [] => pat.isPrefixOf []
  | b :: rest => pat.isPrefixOf (b :: rest) || hasInfix pat rest

/-- `span.subspan(off, len)` on a byte buffer. -/
def subspan (l : List Nat) (off len : Nat) : List Nat :=
  (l.drop off).take len

/-- `parse_octal` from `tgz_extractor.cpp`: skip leading spaces and NULs,
the field runs until the first NUL or space, `std::from_chars` (base 8)
consumes the longest octal-digit prefix; no digit consumed or an
out-of-`uint64`-range value yields zero. -/
def parse_octal (data : List Nat) : Nat :=
  let afterSkip := data.dropWhile (fun b => b == 32 || b == 0)
  let field := afterSkip.takeWhile (fun b => !(b == 0) && !(b == 32))
  let digits := field.takeWhile (fun b => decide (48 ≤ b) && decide (b ≤ 55))
  let value := digits.foldl (fun acc b => acc * 8 + (b - 48)) 0
  if digits.isEmpty then 0
  else if decide (value < 2 ^ 64) then value else 0

/-- `get_safe_string` from `tgz_extractor.cpp`: the string runs until the
first NUL; any byte above 127, or a control byte below 32 other than TAB,
or a length above `TGZ_MAX_PATH_LENGTH`, rejects. -/
def get_safe_string (data : List Nat) : Option (List Nat) :=
  let s := data.takeWhile (fun b => !(b == 0))
  if s.any (fun b => decide (127 < b) || (decide (b < 32) && !(b == 9))) then none
  else if decide (s.length > Config.TGZ_MAX_PATH_LENGTH) then none
  else some s

/-- `validate_checksum` from `tgz_extractor.cpp`: sum the 512 header bytes
with the 8 checksum bytes each replaced by ASCII space (0x20), compare
against the octal value stored in the checksum field. -/
def validate_checksum (header : List Nat) : Bool :=
  let calculated := (List.range Config.TAR_BLOCK_SIZE).foldl
    (fun acc i =>
      if decide (Config.TAR_CHECKSUM_OFFSET ≤ i) &&
         decide (i < Config.TAR_CHECKSUM_OFFSET + Config.TAR_CHECKSUM_LENGTH) then
        acc + 32
      else
        acc + header.getD i 0) 0
  let stored := parse_octal (subspan header Config.TAR_CHECKSUM_OFFSET Config.TAR_CHECKSUM_LENGTH)
  calculated == stored

/-- `is_safe_filename_char`: `[A-Za-z0-9]`, `-`, `_`, `.`, space. -/
def is_safe_filename_char (c : Nat) : Bool :=
  (decide (97 ≤ c) && decide (c ≤ 122)) || (decide (65 ≤ c) && decide (c ≤ 90)) ||
  (decide (48 ≤ c) && decide (c ≤ 57)) || c == 45 || c == 95 || c == 46 || c == 32

/-- `is_safe_filename` from `tgz_extractor.cpp` on one path component
(bytes): nonempty, at most 255 bytes, not `.` or `..`, does not begin or
end with `.`, no `..` substring, only safe filename characters. -/
def is_safe_filename (f : List Nat) : Bool :=
  if f.isEmpty || decide (f.length > Config.TGZ_MAX_PATH_LENGTH) then false
  else if f == [46, 46] || f == [46] || [46].isPrefixOf f || [46].isSuffixOf f ||
          hasInfix [46, 46] f then false
  else f.all is_safe_filename_char

/-- `sanitize_path` from `tgz_extractor.cpp`.  `base_dir` is the abstract
destination directory as a component list; the candidate is a byte string.
`std::filesystem::path` iteration of the candidate is modelled as
`splitOn` the byte 47: exact for the strings that survive the earlier
checks (no leading `/`, no `//`), including the trailing-separator case
where the final element is the empty component.
`std::filesystem::relative(base_dir / components, base_dir)` is modelled
lexically (the sanitizer never touches the filesystem) as the components
re-joined with `/`. -/
def sanitize_path (base_dir : List (List Nat)) (path_str : List Nat) :
    Option (List (List Nat)) :=
  if path_str.isEmpty || decide (path_str.length > Config.TGZ_MAX_TOTAL_PATH_LENGTH) then none
  else if path_str.any (fun b => decide (127 < b) || (decide (b < 32) && !(b == 9))) then none
  else if hasInfix [46, 46, 47] path_str ||
          hasInfix [46, 46, 92] path_str ||
          hasInfix [47, 47] path_str ||
          hasInfix [92, 92] path_str ||
          hasInfix [58, 92] path_str ||
          [47].isPrefixOf path_str || [92].isPrefixOf path_str ||
          [126].isPrefixOf path_str || path_str.contains 59 || path_str.contains 38 ||
          path_str.contains 36 || path_str.contains 96 || path_str.contains 124 then none
  else
    let comps := path_str.splitOn 47
    if decide (comps.length > Config.TGZ_MAX_PATH_DEPTH) then none
    else if comps.any (fun c => !is_safe_filename c) then none
    else
      let result := base_dir ++ comps
      let lexical_rel := [47].intercalate comps
      if lexical_rel.isEmpty || ([46, 46] : List Nat).isPrefixOf lexical_rel ||
         [47].isPrefixOf lexical_rel then none
      else some result

/-- `ExtractError` from `tgz_extractor.hpp`. -/
inductive ExtractError
  | OpenFileFailed
  | ReadFailed
  | InvalidHeader
  | InvalidChecksum
  | CreateDirFailed
  | WriteFileFailed
  | PathTraversalDetected
  | FileTooLarge
  | ArchiveTooLarge
  | SymlinkDetected
  | UnicodeAttackDetected
deriving DecidableEq

/-- A filesystem entry materialized by the extractor: a directory created
by `create_secure_directory` (`::mkdir`), or a regular file created by
`SecureFileHandle` (`::open` with `O_WRONLY|O_CREAT|O_EXCL|O_NOFOLLOW`)
and committed after all its bytes were written.  The extractor performs no
other entry-creating call; in particular there is no symlink or hard-link
action. -/
inductive FsAction
  | mkdir (path : List (List Nat))
  | writeFile (path : List (List Nat)) (content : List Nat)
deriving DecidableEq

/-- The path an action materializes. -/
def FsAction.path : FsAction → List (List Nat)
  | .mkdir p => p
  | .writeFile p _ => p

/-- `create_secure_directory` recursively ensures every ancestor of
`base ++ rel` exists, ascending through the parents of `base` as well;
`::mkdir` on the already-existing destination directory and its ancestors
returns `EEXIST` (an existing directory, accepted) and materializes
nothing, so the chain of new entries is the components below `base`. -/
def mkdirChain (base : List (List Nat)) (rel : List (List Nat)) : List FsAction :=
  (List.range rel.length).map (fun i => FsAction.mkdir (base ++ rel.take (i + 1)))

/-- Result of one extraction: the filesystem entries materialized (in
order), the `(files_seen, bytes_extracted)` counter pair observed at each
header boundary that passed the file-count check, and the error, if any. -/
structure LoopOut where
  acts : List FsAction
  boundaries : List (Nat × Nat)
  err : Option ExtractError
deriving DecidableEq

/-- Outcome of one iteration of the `while (true)` loop of
`TgzExtractor::extract`: either the loop ends (`halt`: normal EOF when
`err` is `none`, or a `return std::unexpected(...)`), or it continues
(`next`) on the remaining stream with updated counters.  Both carry the
actions materialized during the iteration and the counter pairs observed
at the header boundary (recorded once the file-count check passed). -/
inductive StepOut
  | halt (acts : List FsAction) (boundaries : List (Nat × Nat)) (err : Option ExtractError)
  | next (acts : List FsAction) (boundary : Nat × Nat) (s : List Nat) (fc total : Nat)
deriving DecidableEq

/-- The type-flag dispatch of the loop of `TgzExtractor::extract`, after
the entry's path was sanitized to `file_path`: `'5'` creates the
directory chain, `'0'`/NUL ensures the parent chain and streams the file
content (failing with `ReadFailed` when the stream is short; the
uncommitted file is removed so no `writeFile` is materialized), anything
else skips the whole-block payload and still adds `file_size` to the
running byte total. -/
def extract_materialize (base : List (List Nat)) (rest : List Nat) (fc total : Nat)
    (type_flag file_size : Nat) (file_path : List (List Nat)) : StepOut :=
  let rel := file_path.drop base.length
  if type_flag == 53 then
    .next (mkdirChain base rel) (fc, total) rest fc total
  else if type_flag == 48 || type_flag == 0 then
    let parentActs := mkdirChain base rel.dropLast
    if decide (rest.length < file_size) then
      .halt parentActs [(fc, total)] (some .ReadFailed)
    else
      let content := rest.take file_size
      let padding := (Config.TAR_BLOCK_SIZE -
        file_size % Config.TAR_BLOCK_SIZE) % Config.TAR_BLOCK_SIZE
      .next (parentActs ++ [FsAction.writeFile file_path content]) (fc, total)
        ((rest.drop file_size).drop padding) fc ((total + file_size) % 2 ^ 64)
  else
    let full_blocks := (file_size + Config.TAR_BLOCK_SIZE - 1) / Config.TAR_BLOCK_SIZE
    if decide (full_blocks > (2 ^ 63 - 1) / Config.TAR_BLOCK_SIZE) then
      .halt [] [(fc, total)] (some .FileTooLarge)
    else
      .next [] (fc, total) (rest.drop (full_blocks * Config.TAR_BLOCK_SIZE))
        fc ((total + file_size) % 2 ^ 64)

/-- The per-entry checks of the loop of `TgzExtractor::extract`, after
name and prefix were decoded: hard/symbolic links abort, the per-file and
total-size quotas are enforced, the combined path is sanitized, and the
entry is materialized. -/
def extract_typed (base : List (List Nat)) (header rest : List Nat) (fc total : Nat)
    (name_str pfx_str : List Nat) : StepOut :=
  let type_flag := header.getD Config.TAR_TYPE_OFFSET 0
  let file_size := parse_octal (subspan header Config.TAR_SIZE_OFFSET Config.TAR_SIZE_LENGTH)
  if type_flag == 49 || type_flag == 50 then
    .halt [] [(fc, total)] (some .SymlinkDetected)
  else if decide (file_size > Config.TGZ_MAX_FILE_SIZE) then
    .halt [] [(fc, total)] (some .FileTooLarge)
  else if decide (file_size > (Config.TGZ_MAX_TOTAL_SIZE + 2 ^ 64 - total) % 2 ^ 64) then
    .halt [] [(fc, total)] (some .ArchiveTooLarge)
  else
    let full_path := if !pfx_str.isEmpty then pfx_str ++ 47 :: name_str else name_str
    match sanitize_path base full_path with
    | none => .halt [] [(fc, total)] (some .PathTraversalDetected)
    | some file_path =>
      extract_materialize base rest fc total type_flag file_size file_path

/-- The header decoding of one entry of `TgzExtractor::extract`:
checksum validation, then safe-string decoding of name and prefix. -/
def extract_entry (base : List (List Nat)) (header rest : List Nat) (fc total : Nat) :
    StepOut :=
  if !validate_checksum header then .halt [] [(fc, total)] (some .InvalidChecksum)
  else
    match get_safe_string (subspan header Config.TAR_NAME_OFFSET Config.TAR_NAME_LENGTH) with
    | none => .halt [] [(fc, total)] (some .InvalidHeader)
    | some name_str =>
      match get_safe_string
          (subspan header Config.TAR_PREFIX_OFFSET Config.TAR_PREFIX_LENGTH) with
      | none => .halt [] [(fc, total)] (some .InvalidHeader)
      | some pfx_str => extract_typed base header rest fc total name_str pfx_str

/-- One iteration of the loop of `TgzExtractor::extract` over the
decompressed stream `s`.  `gzread` returns the requested bytes or what
remains (zero at EOF), and a forward `gzseek` past EOF succeeds (zlib's
`gz_skip` stops at end of stream), so skips saturate.  `file_count` is
`uint32` and the byte total `uint64`, kept reduced `% 2 ^ w`. -/
def extract_step (base : List (List Nat)) (s : List Nat) (file_count total : Nat) : StepOut :=
  if s.isEmpty then .halt [] [] none
  else if decide (s.length < Config.TAR_BLOCK_SIZE) then .halt [] [] (some .InvalidHeader)
  else
    let header := s.take Config.TAR_BLOCK_SIZE
    let rest := s.drop Config.TAR_BLOCK_SIZE
    if header.all (fun b => b == 0) then .halt [] [] none
    else
      let fc := (file_count + 1) % 2 ^ 32
      if decide (fc > Config.TGZ_MAX_FILES) then .halt [] [] (some .ArchiveTooLarge)
      else extract_entry base header rest fc total

/-- The `while (true)` loop of `TgzExtractor::extract`, one
`extract_step` per 512-byte ustar header.  `fuel` bounds the recursion;
every iteration consumes at least 512 bytes of the stream, so
`s.length + 1` is always sufficient. -/
def extract_loop (base : List (List Nat)) :
    Nat → List Nat → Nat → Nat → LoopOut
  | 0, _, _, _ => ⟨[], [], none⟩
  | fuel + 1, s, file_count, total =>
    match extract_step base s file_count total with
    | .halt acts bnds err => ⟨acts, bnds, err⟩
    | .next acts bnd s2 fc2 total2 =>
      let o := extract_loop base fuel s2 fc2 total2
      ⟨acts ++ o.acts, bnd :: o.boundaries, o.err⟩

namespace TgzExtractor

/-- `TgzExtractor::extract`: run the header loop on the decompressed
stream against the destination directory `base` with both counters zero.
(`gzopen` failure and gzip-level decompression errors are not modelled:
the stream given is the decompressed archive content.) -/
def extract (base : List (List Nat)) (stream : List Nat) : LoopOut :=
  extract_loop base (stream.length + 1) stream 0 0

end TgzExtractor

/-- ASCII bytes of a string literal (for concrete archives). -/
def strBytes (s : String) : List Nat := s.toList.map Char.toNat

/-- Octal ASCII digits of `n`, most significant first. -/
def octalBytes (n : Nat) : List Nat := (Nat.toDigits 8 n).map Char.toNat

/-- Pad a field with NUL bytes to `len`, truncating if longer. -/
def padField (content : List Nat) (len : Nat) : List Nat :=
  (content ++ List.replicate (len - content.length) 0).take len

/-- Build one 512-byte POSIX ustar header block with the given name
bytes, size and type flag, all other fields NUL, and a correct checksum
(octal, NUL-terminated) in bytes 148..156. -/
def buildHeader (name : List Nat) (size : Nat) (typeflag : Nat) : List Nat :=
  let pre := padField name 100 ++ List.replicate 24 0 ++
    padField (octalBytes size) 12 ++ List.replicate 12 0
  let post := typeflag :: List.replicate 355 0
  let sum := (pre ++ List.replicate 8 32 ++ post).sum
  pre ++ padField (octalBytes sum ++ [0]) 8 ++ post

/-! Disk benchmark: `open_benchmark_file` from `disk_benchmark.cpp`. -/

/-- Linux `fcntl.h` flag values used by `disk_benchmark.cpp`. -/
def O_WRONLY : Nat := 1
def O_CREAT : Nat := 64
def O_EXCL : Nat := 128
def O_TRUNC : Nat := 512
def O_DSYNC : Nat := 4096
def O_DIRECT : Nat := 16384
def EINVAL : Nat := 22

/-- `O_WRONLY | O_CREAT | O_TRUNC | O_EXCL`, the `base_flags` of the write
phase of `DiskBenchmark::run_io_test`. -/
def base_flags : Nat := O_WRONLY ||| O_CREAT ||| O_TRUNC ||| O_EXCL

/-- Outcome of one `::open` call: a file descriptor, or a failure with the
`errno` it sets. -/
inductive OpenOutcome
  | ok (fd : Nat)
  | fail (errno : Nat)
deriving DecidableEq

/-- Result of `open_benchmark_file`: the descriptor if any, the recorded
storage mode (1 = DIRECT+DSYNC, 2 = DIRECT, 3 = DSYNC, 4 = buffered,
0 = failure), the flag words passed to `::open` in order, and the `errno`
of the final failed attempt (the value `run_io_test` reports). -/
structure OpenResult where
  fd : Option Nat
  success_mode : Nat
  tried : List Nat
  errno : Option Nat
deriving DecidableEq

/-- `open_benchmark_file` from `disk_benchmark.cpp` (Linux build, so
`O_DIRECT` is defined): try `flags|O_DIRECT|O_DSYNC`, `flags|O_DIRECT`,
`flags|O_DSYNC`, then `flags`, accepting the first descriptor; fall
through to the next combination only when `errno == EINVAL`, otherwise
stop and report that `errno`.  The kernel is abstracted as the function
`os` from the flag word to the outcome of `::open`. -/
def open_benchmark_file (os : Nat → OpenOutcome) (flags : Nat) : OpenResult :=
  match os (flags ||| O_DIRECT ||| O_DSYNC) with
  | .ok fd => ⟨some fd, 1, [flags ||| O_DIRECT ||| O_DSYNC], none⟩
  | .fail e1 =>
    if !(e1 == EINVAL) then ⟨none, 0, [flags ||| O_DIRECT ||| O_DSYNC], some e1⟩
    else
      match os (flags ||| O_DIRECT) with
      | .ok fd => ⟨some fd, 2, [flags ||| O_DIRECT ||| O_DSYNC, flags ||| O_DIRECT], none⟩
      | .fail e2 =>
        if !(e2 == EINVAL) then
          ⟨none, 0, [flags ||| O_DIRECT ||| O_DSYNC, flags ||| O_DIRECT], some e2⟩
        else
          match os (flags ||| O_DSYNC) with
          | .ok fd =>
            ⟨some fd, 3,
             [flags ||| O_DIRECT ||| O_DSYNC, flags ||| O_DIRECT, flags ||| O_DSYNC], none⟩
          | .fail e3 =>
            if !(e3 == EINVAL) then
              ⟨none, 0,
               [flags ||| O_DIRECT ||| O_DSYNC, flags ||| O_DIRECT, flags ||| O_DSYNC], some e3⟩
            else
              match os flags with
              | .ok fd =>
                ⟨some fd, 4,
                 [flags ||| O_DIRECT ||| O_DSYNC, flags ||| O_DIRECT, flags ||| O_DSYNC, flags],
                 none⟩
              | .fail e4 =>
                ⟨none, 0,
                 [flags ||| O_DIRECT ||| O_DSYNC, flags ||| O_DIRECT, flags ||| O_DSYNC, flags],
                 some e4⟩

/-! Shell pipe: the post-EOF reaping of `ShellPipe::read_all` from
`shell_pipe.cpp`, for a child collected by `waitpid` with
`WIFEXITED(status)` true. -/

/-- The exit-code branch of `ShellPipe::read_all` after EOF: a child that
exited with code `code ≠ 0` raises `"Child exited with code N"`, with the
captured output appended after `"\nOutput: "` when non-empty, exactly when
the output is empty or `raise_on_error` was passed; otherwise the captured
output is returned. -/
def read_all_exited (code : Nat) (output : String) (raise_on_error : Bool) :
    Except String String :=
  if !(code == 0) then
    if output.isEmpty || raise_on_error then
      Except.error ("Child exited with code " ++ toString code ++
        (if !output.isEmpty then "\nOutput: " ++ output else ""))
    else Except.ok output
  else Except.ok output

/-! Speed test: the CLI-error synthesis of `SpeedTest::run` from
`http_client.cpp`. -/

/-- `trim_sv` from `utils.hpp`: strip the characters of `" \t\n\r\v\f"`
from both ends. -/
def isTrimmedChar (c : Char) : Bool :=
  c == ' ' || c == '\t' || c == '\n' || c == '\r' || c == '\x0B' || c == '\x0C'

/-- `trim` from `utils.hpp` on a character list. -/
def trim (s : List Char) : List Char :=
  ((s.dropWhile isTrimmedChar).reverse.dropWhile isTrimmedChar).reverse

/-- The no-result fallback of `SpeedTest::run`: when no `result` line was
seen, the entry is not successful, no error was recorded and no rate limit
was hit, synthesize an error from the last non-empty raw output line:
trim it, truncate to its first 47 characters plus `"..."` when longer than
50, and give it the `"CLI Error: "` prefix; an empty line yields
`"No Result Data (Empty Output)"`.  Otherwise the recorded error text is
kept. -/
def synthesize_cli_error (found_result success rate_limited : Bool)
    (error_text last_raw_output : List Char) : List Char :=
  if !found_result && !success && error_text.isEmpty && !rate_limited then
    if !last_raw_output.isEmpty then
      let clean_msg := trim last_raw_output
      if decide (clean_msg.length > 50) then
        "CLI Error: ".toList ++ clean_msg.take 47 ++ "...".toList
      else
        "CLI Error: ".toList ++ clean_msg
    else
      "No Result Data (Empty Output)".toList
  else error_text

/-! Helper lemmas. -/

lemma foldl_if_add (l : List Nat) (p : Nat → Bool) (f g : Nat → Nat) (a : Nat) :
    l.foldl (fun acc i => if p i then acc + f i else acc + g i) a
      = a + (l.map (fun i => if p i then f i else g i)).sum := by
  induction l generalizing a with
  | nil => simp
  | cons x xs ih =>
    simp only [List.foldl_cons, List.map_cons, List.sum_cons, ih]
    split <;> omega

lemma map_range_getD (l : List Nat) (k n : Nat) (h : k + n ≤ l.length) :
    (List.range n).map (fun i => l.getD (k + i) 0) = (l.drop k).take n := by
  apply List.ext_getElem
  · simp
    omega
  · intro i h1 h2
    simp only [List.getElem_map, List.getElem_range]
    rw [List.getElem_take, List.getElem_drop, List.getD_eq_getElem]

/-- The checksum loop of `validate_checksum` computes the sum of the
header with the checksum field replaced by spaces. -/
lemma validate_checksum_calculated (b : List Nat) (h : b.length = 512) :
    (List.range Config.TAR_BLOCK_SIZE).foldl
      (fun acc i =>
        if decide (Config.TAR_CHECKSUM_OFFSET ≤ i) &&
           decide (i < Config.TAR_CHECKSUM_OFFSET + Config.TAR_CHECKSUM_LENGTH) then
          acc + 32
        else
          acc + b.getD i 0) 0
      = (b.take 148 ++ List.replicate 8 32 ++ b.drop 156).sum := by
  rw [foldl_if_add (f := fun _ => 32) (g := fun i => b.getD i 0), Nat.zero_add]
  simp only [Config.TAR_BLOCK_SIZE]
  have hsplit : (512 : Nat) = 148 + (8 + 356) := by norm_num
  rw [hsplit, List.range_add, List.range_add]
  simp only [List.map_append, List.map_map, List.sum_append, Function.comp_def,
    Config.TAR_CHECKSUM_OFFSET, Config.TAR_CHECKSUM_LENGTH]
  have e1 : (List.range 148).map
      (fun i => if (decide (148 ≤ i) && decide (i < 148 + 8)) = true then 32
        else b.getD i 0) = b.take 148 := by
    have base := map_range_getD b 0 148 (by omega)
    simp only [Nat.zero_add, List.drop_zero] at base
    rw [← base]
    apply List.map_congr_left
    intro i hi
    have hi148 : i < 148 := List.mem_range.mp hi
    simp [show ¬ (148 ≤ i) by omega]
  have e2 : (List.range 8).map
      (fun x => if (decide (148 ≤ 148 + x) && decide (148 + x < 148 + 8)) = true then 32
        else b.getD (148 + x) 0) = List.replicate 8 32 := by
    rw [List.eq_replicate_iff]
    constructor
    · simp
    · intro y hy
      rw [List.mem_map] at hy
      obtain ⟨x, hx, rfl⟩ := hy
      have hx8 : x < 8 := List.mem_range.mp hx
      simp [show (148 : Nat) ≤ 148 + x by omega, show 148 + x < 148 + 8 by omega]
  have e3 : (List.range 356).map
      (fun x => if (decide (148 ≤ 148 + (8 + x)) && decide (148 + (8 + x) < 148 + 8)) = true
        then 32 else b.getD (148 + (8 + x)) 0) = b.drop 156 := by
    have base := map_range_getD b 156 356 (by omega)
    have ht : (b.drop 156).take 356 = b.drop 156 := by
      have hlen : (b.drop 156).length = 356 := by simp [h]
      rw [← hlen, List.take_length]
    rw [ht] at base
    rw [← base]
    apply List.map_congr_left
    intro x hx
    have hx356 : x < 356 := List.mem_range.mp hx
    simp [show ¬ (148 + (8 + x) < 148 + 8) by omega,
      show (148 : Nat) + (8 + x) = 156 + x by omega]
  rw [e1, e2, e3]
  simp only [List.sum_replicate, smul_eq_mul]
  omega

/-- C4: for every 512-byte header block `b`, `validate_checksum b` returns
true if and only if the octal value parsed from the 8-byte checksum field
(bytes 148..156, leading spaces and NULs skipped, parse failure yielding
zero) equals the unsigned sum of all 512 bytes of `b` with those 8
checksum bytes each replaced by ASCII space (0x20). -/
theorem tar_checksum_validates_replaced_sum (b : List Nat) (h : b.length = 512) :
    validate_checksum b = true ↔
      parse_octal (subspan b Config.TAR_CHECKSUM_OFFSET Config.TAR_CHECKSUM_LENGTH) =
        (b.take 148 ++ List.replicate 8 32 ++ b.drop 156).sum := by
  simp only [validate_checksum]
  rw [validate_checksum_calculated b h, beq_iff_eq]
  exact eq_comm

set_option maxRecDepth 100000 in
/-- Witness for the checksum characterization at a concrete header
block. -/
theorem tar_checksum_validates_replaced_sum_witness :
    (buildHeader (strBytes "f") 0 48).length = 512 ∧
      (validate_checksum (buildHeader (strBytes "f") 0 48) = true ↔
        parse_octal (subspan (buildHeader (strBytes "f") 0 48)
            Config.TAR_CHECKSUM_OFFSET Config.TAR_CHECKSUM_LENGTH) =
          ((buildHeader (strBytes "f") 0 48).take 148 ++ List.replicate 8 32 ++
            (buildHeader (strBytes "f") 0 48).drop 156).sum) :=
  ⟨by decide, tar_checksum_validates_replaced_sum (buildHeader (strBytes "f") 0 48) (by decide)⟩

/-- An accepted sanitized path is the base directory extended by the
candidate's components. -/
lemma sanitize_path_eq_append {base : List (List Nat)} {p : List Nat}
    {r : List (List Nat)} (h : sanitize_path base p = some r) :
    r = base ++ p.splitOn 47 := by
  simp only [sanitize_path] at h
  split_ifs at h
  exact (Option.some.inj h).symm

/-- C6: the path sanitizer is idempotent: re-sanitizing the relative part
(`sanitize(b, p).relative_to(b)`, the accepted components re-joined with
`/`) against the same base yields the same result. -/
theorem sanitize_path_idempotent (base : List (List Nat)) (p : List Nat)
    (r : List (List Nat)) (h : sanitize_path base p = some r) :
    sanitize_path base ([47].intercalate (r.drop base.length)) = some r := by
  have hr : r = base ++ p.splitOn 47 := sanitize_path_eq_append h
  rw [hr, List.drop_left, List.intercalate_splitOn, ← hr]
  exact h

/-- Witness for sanitizer idempotence at a concrete candidate. -/
theorem sanitize_path_idempotent_witness :
    sanitize_path [] (strBytes "a/b") = some [strBytes "a", strBytes "b"] ∧
      sanitize_path []
          ([47].intercalate (([strBytes "a", strBytes "b"] :
            List (List Nat)).drop ([] : List (List Nat)).length)) =
        some [strBytes "a", strBytes "b"] :=
  ⟨by decide, sanitize_path_idempotent [] (strBytes "a/b") _ (by decide)⟩

/-- The four flag words `open_benchmark_file` can pass to `::open`, in
order: `O_DIRECT|O_DSYNC`, `O_DIRECT`, `O_DSYNC`, none, each over the
caller's base flags. -/
def try_flags (flags : Nat) : List Nat :=
  [flags ||| O_DIRECT ||| O_DSYNC, flags ||| O_DIRECT, flags ||| O_DSYNC, flags]

/-- C7: `open_benchmark_file` tries the four flag combinations in order,
accepts the first that succeeds (recording storage modes 1..4), falls
through to the next combination only when `::open` fails with `EINVAL`,
and on any other `errno` stops with no descriptor, no further attempts,
and that `errno` recorded (which `run_io_test` reports as the failure of
the whole test). -/
theorem open_fallback_einval_only (os : Nat → OpenOutcome) (flags : Nat) :
    (∀ fd, os (flags ||| O_DIRECT ||| O_DSYNC) = .ok fd →
      open_benchmark_file os flags = ⟨some fd, 1, (try_flags flags).take 1, none⟩) ∧
    (∀ e, os (flags ||| O_DIRECT ||| O_DSYNC) = .fail e → e ≠ EINVAL →
      open_benchmark_file os flags = ⟨none, 0, (try_flags flags).take 1, some e⟩) ∧
    (os (flags ||| O_DIRECT ||| O_DSYNC) = .fail EINVAL →
      (∀ fd, os (flags ||| O_DIRECT) = .ok fd →
        open_benchmark_file os flags = ⟨some fd, 2, (try_flags flags).take 2, none⟩) ∧
      (∀ e, os (flags ||| O_DIRECT) = .fail e → e ≠ EINVAL →
        open_benchmark_file os flags = ⟨none, 0, (try_flags flags).take 2, some e⟩) ∧
      (os (flags ||| O_DIRECT) = .fail EINVAL →
        (∀ fd, os (flags ||| O_DSYNC) = .ok fd →
          open_benchmark_file os flags = ⟨some fd, 3, (try_flags flags).take 3, none⟩) ∧
        (∀ e, os (flags ||| O_DSYNC) = .fail e → e ≠ EINVAL →
          open_benchmark_file os flags = ⟨none, 0, (try_flags flags).take 3, some e⟩) ∧
        (os (flags ||| O_DSYNC) = .fail EINVAL →
          (∀ fd, os flags = .ok fd →
            open_benchmark_file os flags = ⟨some fd, 4, try_flags flags, none⟩) ∧
          (∀ e, os flags = .fail e →
            open_benchmark_file os flags = ⟨none, 0, try_flags flags, some e⟩)))) := by
  refine ⟨?_, ?_, ?_⟩
  · intro fd hfd
    simp [open_benchmark_file, hfd, try_flags]
  · intro e he hne
    simp [open_benchmark_file, he, hne, try_flags]
  intro h1
  refine ⟨?_, ?_, ?_⟩
  · intro fd hfd
    simp [open_benchmark_file, h1, hfd, try_flags]
  · intro e he hne
    simp [open_benchmark_file, h1, he, hne, try_flags]
  intro h2
  refine ⟨?_, ?_, ?_⟩
  · intro fd hfd
    simp [open_benchmark_file, h1, h2, hfd, try_flags]
  · intro e he hne
    simp [open_benchmark_file, h1, h2, he, hne, try_flags]
  intro h3
  refine ⟨?_, ?_⟩
  · intro fd hfd
    simp [open_benchmark_file, h1, h2, h3, hfd, try_flags]
  · intro e he
    simp [open_benchmark_file, h1, h2, h3, he, try_flags]

/-- Witness for the open-mode fallback: a kernel that rejects `O_DIRECT`
combinations with `EINVAL` and accepts `O_DSYNC` alone lands on mode 3;
one that fails the first attempt with `EACCES` (13) stops immediately. -/
theorem open_fallback_einval_only_witness :
    open_benchmark_file
        (fun f => if f == base_flags ||| O_DSYNC then .ok 7 else .fail EINVAL) base_flags =
      ⟨some 7, 3, (try_flags base_flags).take 3, none⟩ ∧
    open_benchmark_file (fun _ => .fail 13) base_flags =
      ⟨none, 0, (try_flags base_flags).take 1, some 13⟩ := by
  constructor
  · exact ((((open_fallback_einval_only
      (fun f => if f == base_flags ||| O_DSYNC then .ok 7 else .fail EINVAL)
      base_flags).2.2 (by decide)).2.2 (by decide)).1 7 (by decide))
  · exact (open_fallback_einval_only (fun _ => .fail 13) base_flags).2.1 13 rfl (by decide)

/-- C8: after `read_all` reaches EOF and reaps a child that exited with a
non-zero code, it fails with `"Child exited with code N"` (with the
captured output appended when non-empty) exactly when the captured output
is empty or `raise_on_error` was passed; otherwise it returns the captured
output without error. -/
theorem read_all_nonzero_exit (code : Nat) (output : String) (raise_on_error : Bool)
    (h : code ≠ 0) :
    ((output.isEmpty || raise_on_error) = true →
      read_all_exited code output raise_on_error =
        Except.error ("Child exited with code " ++ toString code ++
          (if !output.isEmpty then "\nOutput: " ++ output else ""))) ∧
    ((output.isEmpty || raise_on_error) = false →
      read_all_exited code output raise_on_error = Except.ok output) := by
  constructor
  · intro hc
    simp [read_all_exited, h, hc]
  · intro hc
    simp [read_all_exited, h, hc]

/-- Witness for the exit-code handling: code 3 with empty output fails
with the exact message; code 3 with output `"x"` and the flag unset
returns the output. -/
theorem read_all_nonzero_exit_witness :
    read_all_exited 3 "" false = Except.error "Child exited with code 3" ∧
      read_all_exited 3 "x" false = Except.ok "x" := by
  constructor
  · have h := (read_all_nonzero_exit 3 "" false (by decide)).1 (by decide)
    simpa using h
  · exact (read_all_nonzero_exit 3 "x" false (by decide)).2 (by decide)

/-- C9 counterexample: with a last raw line of 51 characters, the
synthesized error is the first 47 characters plus `"..."`, not the
50-character truncation plus `"..."` the claim states. -/
theorem cli_error_truncation_counterexample :
    synthesize_cli_error false false false [] (List.replicate 51 'a') =
      "CLI Error: ".toList ++ List.replicate 47 'a' ++ "...".toList ∧
    synthesize_cli_error false false false [] (List.replicate 51 'a') ≠
      "CLI Error: ".toList ++ (List.replicate 51 'a').take 50 ++ "...".toList := by
  constructor
  · decide
  · decide

/-- C9 (amended): when a server attempt produced no result line, no
recorded error and no rate limit, and the trimmed last non-empty raw
output line is longer than 50 characters, the synthesized entry error is
`"CLI Error: "` followed by the first 47 characters of that trimmed line
and a `"..."` suffix. -/
theorem cli_error_truncation (last_raw_output : List Char)
    (h : (trim last_raw_output).length > 50) :
    synthesize_cli_error false false false [] last_raw_output =
      "CLI Error: ".toList ++ (trim last_raw_output).take 47 ++ "...".toList := by
  have hne : last_raw_output ≠ [] := by
    intro he
    rw [he] at h
    simp [trim] at h
  simp [synthesize_cli_error, hne, h]

/-- Witness for the amended truncation behavior. -/
theorem cli_error_truncation_witness :
    (trim (List.replicate 60 'b')).length > 50 ∧
      synthesize_cli_error false false false [] (List.replicate 60 'b') =
        "CLI Error: ".toList ++ (trim (List.replicate 60 'b')).take 47 ++ "...".toList :=
  ⟨by decide, cli_error_truncation (List.replicate 60 'b') (by decide)⟩

/-! Infrastructure for reasoning about the sanitizer on joined component
prefixes. -/

lemma hasInfix_iff {pat s : List Nat} : hasInfix pat s = true ↔ pat <:+: s := by
  induction s with
  | nil =>
    simp [hasInfix, List.isPrefixOf_iff_prefix]
  | cons b rest ih =>
    simp [hasInfix, List.isPrefixOf_iff_prefix, ih, List.infix_cons_iff]

lemma hasInfix_false_mono {pat s t : List Nat} (hst : s <+: t)
    (h : hasInfix pat t = false) : hasInfix pat s = false := by
  cases hh : hasInfix pat s
  · rfl
  · exact absurd (hasInfix_iff.mpr ((hasInfix_iff.mp hh).trans hst.isInfix)) (by simp [h])

lemma isPrefixOf_false_mono {pat s t : List Nat} (hst : s <+: t)
    (h : pat.isPrefixOf t = false) : pat.isPrefixOf s = false := by
  cases hh : pat.isPrefixOf s
  · rfl
  · exact absurd (List.isPrefixOf_iff_prefix.mpr
      ((List.isPrefixOf_iff_prefix.mp hh).trans hst)) (by simp [h])

lemma any_false_mono {α : Type} {f : α → Bool} {s t : List α} (hsub : s ⊆ t)
    (h : t.any f = false) : s.any f = false := by
  rw [List.any_eq_false] at h ⊢
  exact fun x hx => h x (hsub hx)

lemma contains_false_mono {a : Nat} {s t : List Nat} (hsub : s ⊆ t)
    (h : t.contains a = false) : s.contains a = false := by
  rw [List.contains_eq_any_beq] at h ⊢
  exact any_false_mono hsub h

lemma intercalate_cons2 (a b : List Nat) (l : List (List Nat)) :
    [47].intercalate (a :: b :: l) = a ++ 47 :: [47].intercalate (b :: l) := by
  simp [List.intercalate, List.intersperse_cons_cons]

lemma head_prefix_intercalate (c : List Nat) (l : List (List Nat)) :
    c <+: [47].intercalate (c :: l) := by
  cases l with
  | nil => simp [List.intercalate]
  | cons d t =>
    rw [intercalate_cons2]
    exact List.prefix_append c _

lemma intercalate_take_prefix (l : List (List Nat)) (k : Nat) :
    [47].intercalate (l.take k) <+: [47].intercalate l := by
  induction l generalizing k with
  | nil => simp
  | cons c t ih =>
    cases k with
    | zero => simp [List.intercalate]
    | succ k =>
      rw [List.take_succ_cons]
      cases t with
      | nil => simp
      | cons d t2 =>
        cases k with
        | zero =>
          have hred : [47].intercalate (c :: List.take 0 (d :: t2)) = c := by
            simp [List.intercalate]
          rw [hred]
          exact head_prefix_intercalate c (d :: t2)
        | succ k2 =>
          rw [List.take_succ_cons, intercalate_cons2, intercalate_cons2]
          exact ((List.prefix_append_right_inj c).mpr
            (List.cons_prefix_cons.mpr ⟨rfl, ih (k2 + 1)⟩))

lemma ne_nil_of_safe {c : List Nat} (h : is_safe_filename c = true) : c ≠ [] := by
  intro hnil
  rw [hnil] at h
  simp [is_safe_filename] at h

lemma not_mem_of_safe {c : List Nat} (h : is_safe_filename c = true) : ¬ (47 ∈ c) := by
  intro hm
  unfold is_safe_filename at h
  split_ifs at h
  have := List.all_eq_true.mp h 47 hm
  simp [is_safe_filename_char] at this

/-- All the checks an accepted candidate passed, and the shape of the
accepted result. -/
lemma sanitize_path_some_spec {base : List (List Nat)} {p : List Nat}
    {r : List (List Nat)} (h : sanitize_path base p = some r) :
    (p.isEmpty || decide (p.length > Config.TGZ_MAX_TOTAL_PATH_LENGTH)) = false ∧
    (p.any (fun b => decide (127 < b) || (decide (b < 32) && !(b == 9)))) = false ∧
    (hasInfix [46, 46, 47] p || hasInfix [46, 46, 92] p || hasInfix [47, 47] p ||
      hasInfix [92, 92] p || hasInfix [58, 92] p || [47].isPrefixOf p ||
      [92].isPrefixOf p || [126].isPrefixOf p || p.contains 59 || p.contains 38 ||
      p.contains 36 || p.contains 96 || p.contains 124) = false ∧
    decide ((p.splitOn 47).length > Config.TGZ_MAX_PATH_DEPTH) = false ∧
    ((p.splitOn 47).any (fun c => !is_safe_filename c)) = false ∧
    (([47].intercalate (p.splitOn 47)).isEmpty ||
      ([46, 46] : List Nat).isPrefixOf ([47].intercalate (p.splitOn 47)) ||
      [47].isPrefixOf ([47].intercalate (p.splitOn 47))) = false ∧
    r = base ++ p.splitOn 47 := by
  simp only [sanitize_path] at h
  split_ifs at h with A1 A2 A3 A4 A5 A6
  exact ⟨Bool.eq_false_iff.mpr A1, Bool.eq_false_iff.mpr A2, Bool.eq_false_iff.mpr A3,
    Bool.eq_false_iff.mpr A4, Bool.eq_false_iff.mpr A5, Bool.eq_false_iff.mpr A6,
    (Option.some.inj h).symm⟩

/-- A candidate that passes every check is accepted, with the result the
base extended by the candidate's components. -/
lemma sanitize_path_eq_some_of {base : List (List Nat)} {q : List Nat}
    (B1 : (q.isEmpty || decide (q.length > Config.TGZ_MAX_TOTAL_PATH_LENGTH)) = false)
    (B2 : (q.any (fun b => decide (127 < b) || (decide (b < 32) && !(b == 9)))) = false)
    (B3 : (hasInfix [46, 46, 47] q || hasInfix [46, 46, 92] q || hasInfix [47, 47] q ||
      hasInfix [92, 92] q || hasInfix [58, 92] q || [47].isPrefixOf q ||
      [92].isPrefixOf q || [126].isPrefixOf q || q.contains 59 || q.contains 38 ||
      q.contains 36 || q.contains 96 || q.contains 124) = false)
    (B4 : decide ((q.splitOn 47).length > Config.TGZ_MAX_PATH_DEPTH) = false)
    (B5 : ((q.splitOn 47).any (fun c => !is_safe_filename c)) = false)
    (B6 : (([47].intercalate (q.splitOn 47)).isEmpty ||
      ([46, 46] : List Nat).isPrefixOf ([47].intercalate (q.splitOn 47)) ||
      [47].isPrefixOf ([47].intercalate (q.splitOn 47))) = false) :
    sanitize_path base q = some (base ++ q.splitOn 47) := by
  simp only [sanitize_path]
  rw [B1, if_neg Bool.false_ne_true, B2, if_neg Bool.false_ne_true,
    B3, if_neg Bool.false_ne_true, B4, if_neg Bool.false_ne_true,
    B5, if_neg Bool.false_ne_true, B6, if_neg Bool.false_ne_true]

/-- The sanitizer accepts every nonempty prefix of the components of an
accepted candidate (re-joined with `/`): the chain of parent directories
of an accepted entry path is itself accepted. -/
lemma sanitize_path_take {base : List (List Nat)} {p : List Nat} {r : List (List Nat)}
    (h : sanitize_path base p = some r) {k : Nat} (hk : 1 ≤ k) :
    sanitize_path base ([47].intercalate ((p.splitOn 47).take k)) =
      some (base ++ (p.splitOn 47).take k) := by
  obtain ⟨A1, A2, A3, A4, A5, A6, hr⟩ := sanitize_path_some_spec h
  have hpj : [47].intercalate (p.splitOn 47) = p := List.intercalate_splitOn p 47
  have hpre := intercalate_take_prefix (p.splitOn 47) k
  rw [hpj] at hpre
  obtain ⟨c0, cs, hc⟩ : ∃ c0 cs, p.splitOn 47 = c0 :: cs := by
    cases hcc : p.splitOn 47 with
    | nil => exact absurd hcc (List.splitOnP_ne_nil _ p)
    | cons c0 cs => exact ⟨c0, cs, rfl⟩
  have hsafe_all : ∀ c ∈ p.splitOn 47, is_safe_filename c = true := by
    intro c hcmem
    have hx := List.any_eq_false.mp A5 c hcmem
    simpa using hx
  obtain ⟨k2, rfl⟩ : ∃ k2, k = k2 + 1 := ⟨k - 1, by omega⟩
  have htake : (p.splitOn 47).take (k2 + 1) = c0 :: cs.take k2 := by
    rw [hc, List.take_succ_cons]
  have hc0pre : c0 <+: [47].intercalate ((p.splitOn 47).take (k2 + 1)) := by
    rw [htake]
    exact head_prefix_intercalate c0 (cs.take k2)
  have hc0ne : c0 ≠ [] := ne_nil_of_safe (hsafe_all c0 (by simp [hc]))
  have hjk_ne : [47].intercalate ((p.splitOn 47).take (k2 + 1)) ≠ [] := by
    intro hnil
    exact hc0ne (List.prefix_nil.mp (hnil ▸ hc0pre))
  have hsplit_jk : ([47].intercalate ((p.splitOn 47).take (k2 + 1))).splitOn 47 =
      (p.splitOn 47).take (k2 + 1) := by
    apply List.splitOn_intercalate
    · intro l hl
      exact not_mem_of_safe (hsafe_all l (List.take_subset _ _ hl))
    · rw [htake]
      exact List.cons_ne_nil _ _
  have hB1 : ((([47].intercalate ((p.splitOn 47).take (k2 + 1)))).isEmpty ||
      decide (([47].intercalate ((p.splitOn 47).take (k2 + 1))).length >
        Config.TGZ_MAX_TOTAL_PATH_LENGTH)) = false := by
    have hlen : ([47].intercalate ((p.splitOn 47).take (k2 + 1))).length ≤ p.length :=
      hpre.length_le
    have hplen : ¬ (p.length > Config.TGZ_MAX_TOTAL_PATH_LENGTH) := by
      rcases Bool.or_eq_false_iff.mp A1 with ⟨-, h2⟩
      simpa using h2
    simp [List.isEmpty_eq_false.mpr hjk_ne]
    omega
  have hB2 := any_false_mono hpre.subset A2
  simp only [Bool.or_eq_false_iff] at A3
  obtain ⟨⟨⟨⟨⟨⟨⟨⟨⟨⟨⟨⟨hI1, hI2⟩, hI3⟩, hI4⟩, hI5⟩, hP1⟩, hP2⟩, hP3⟩, hC1⟩, hC2⟩,
    hC3⟩, hC4⟩, hC5⟩ := A3
  have hB3 : (hasInfix [46, 46, 47] ([47].intercalate ((p.splitOn 47).take (k2 + 1))) ||
      hasInfix [46, 46, 92] ([47].intercalate ((p.splitOn 47).take (k2 + 1))) ||
      hasInfix [47, 47] ([47].intercalate ((p.splitOn 47).take (k2 + 1))) ||
      hasInfix [92, 92] ([47].intercalate ((p.splitOn 47).take (k2 + 1))) ||
      hasInfix [58, 92] ([47].intercalate ((p.splitOn 47).take (k2 + 1))) ||
      [47].isPrefixOf ([47].intercalate ((p.splitOn 47).take (k2 + 1))) ||
      [92].isPrefixOf ([47].intercalate ((p.splitOn 47).take (k2 + 1))) ||
      [126].isPrefixOf ([47].intercalate ((p.splitOn 47).take (k2 + 1))) ||
      ([47].intercalate ((p.splitOn 47).take (k2 + 1))).contains 59 ||
      ([47].intercalate ((p.splitOn 47).take (k2 + 1))).contains 38 ||
      ([47].intercalate ((p.splitOn 47).take (k2 + 1))).contains 36 ||
      ([47].intercalate ((p.splitOn 47).take (k2 + 1))).contains 96 ||
      ([47].intercalate ((p.splitOn 47).take (k2 + 1))).contains 124) = false := by
    simp only [Bool.or_eq_false_iff]
    refine ⟨⟨⟨⟨⟨⟨⟨⟨⟨⟨⟨⟨?_, ?_⟩, ?_⟩, ?_⟩, ?_⟩, ?_⟩, ?_⟩, ?_⟩, ?_⟩, ?_⟩, ?_⟩, ?_⟩, ?_⟩
    · exact hasInfix_false_mono hpre hI1
    · exact hasInfix_false_mono hpre hI2
    · exact hasInfix_false_mono hpre hI3
    · exact hasInfix_false_mono hpre hI4
    · exact hasInfix_false_mono hpre hI5
    · exact isPrefixOf_false_mono hpre hP1
    · exact isPrefixOf_false_mono hpre hP2
    · exact isPrefixOf_false_mono hpre hP3
    · exact contains_false_mono hpre.subset hC1
    · exact contains_false_mono hpre.subset hC2
    · exact contains_false_mono hpre.subset hC3
    · exact contains_false_mono hpre.subset hC4
    · exact contains_false_mono hpre.subset hC5
  have hB4 : decide ((([47].intercalate ((p.splitOn 47).take (k2 + 1))).splitOn 47).length >
      Config.TGZ_MAX_PATH_DEPTH) = false := by
    rw [hsplit_jk]
    have hlen : ((p.splitOn 47).take (k2 + 1)).length ≤ (p.splitOn 47).length := by
      simp [List.length_take]
    have h20 : ¬ ((p.splitOn 47).length > Config.TGZ_MAX_PATH_DEPTH) := by
      simpa using A4
    simp
    omega
  have hB5 : ((([47].intercalate ((p.splitOn 47).take (k2 + 1))).splitOn 47).any
      (fun c => !is_safe_filename c)) = false := by
    rw [hsplit_jk]
    exact any_false_mono (List.take_subset _ _) A5
  have hA6p : (p.isEmpty || ([46, 46] : List Nat).isPrefixOf p ||
      [47].isPrefixOf p) = false := by
    rw [← hpj]
    exact A6
  simp only [Bool.or_eq_false_iff] at hA6p
  obtain ⟨⟨-, h46⟩, h47⟩ := hA6p
  have hB6 : (([47].intercalate (([47].intercalate ((p.splitOn 47).take
        (k2 + 1))).splitOn 47)).isEmpty ||
      ([46, 46] : List Nat).isPrefixOf ([47].intercalate (([47].intercalate
        ((p.splitOn 47).take (k2 + 1))).splitOn 47)) ||
      [47].isPrefixOf ([47].intercalate (([47].intercalate ((p.splitOn 47).take
        (k2 + 1))).splitOn 47))) = false := by
    rw [hsplit_jk]
    simp only [Bool.or_eq_false_iff]
    exact ⟨⟨List.isEmpty_eq_false.mpr hjk_ne, isPrefixOf_false_mono hpre h46⟩,
      isPrefixOf_false_mono hpre h47⟩
  have hout := @sanitize_path_eq_some_of base _ hB1 hB2 hB3 hB4 hB5 hB6
  rw [hsplit_jk] at hout
  exact hout

/-- The actions materialized during one step. -/
def StepOut.acts : StepOut → List FsAction
  | .halt a _ _ => a
  | .next a _ _ _ _ => a

/-- Every action in the list has a path the sanitizer accepts against
`base`. -/
def acts_sanitized (base : List (List Nat)) (acts : List FsAction) : Prop :=
  ∀ a ∈ acts, ∃ q, sanitize_path base q = some (FsAction.path a)

lemma acts_sanitized_append {base : List (List Nat)} {l1 l2 : List FsAction}
    (h1 : acts_sanitized base l1) (h2 : acts_sanitized base l2) :
    acts_sanitized base (l1 ++ l2) := by
  intro a ha
  rcases List.mem_append.mp ha with hm | hm
  · exact h1 a hm
  · exact h2 a hm

lemma mkdirChain_take_sanitized {base : List (List Nat)} {q : List Nat}
    {r : List (List Nat)} (hs : sanitize_path base q = some r) (m : Nat) :
    acts_sanitized base (mkdirChain base ((q.splitOn 47).take m)) := by
  intro a ha
  unfold mkdirChain at ha
  rw [List.mem_map] at ha
  obtain ⟨i, hi, rfl⟩ := ha
  rw [List.mem_range] at hi
  have htt : ((q.splitOn 47).take m).take (i + 1) = (q.splitOn 47).take (i + 1) := by
    rw [List.take_take]
    congr 1
    have hlt : i < ((q.splitOn 47).take m).length := by
      simpa using hi
    simp [List.length_take] at hlt
    omega
  refine ⟨[47].intercalate ((q.splitOn 47).take (i + 1)), ?_⟩
  simp only [FsAction.path, htt]
  exact sanitize_path_take hs (by omega)

lemma mkdirChain_full_sanitized {base : List (List Nat)} {q : List Nat}
    {r : List (List Nat)} (hs : sanitize_path base q = some r) :
    acts_sanitized base (mkdirChain base (q.splitOn 47)) := by
  have h := mkdirChain_take_sanitized hs ((q.splitOn 47).length)
  rwa [List.take_length] at h

lemma mkdirChain_dropLast_sanitized {base : List (List Nat)} {q : List Nat}
    {r : List (List Nat)} (hs : sanitize_path base q = some r) :
    acts_sanitized base (mkdirChain base ((q.splitOn 47).dropLast)) := by
  have h := mkdirChain_take_sanitized hs ((q.splitOn 47).length - 1)
  rwa [← List.dropLast_eq_take] at h

lemma extract_materialize_acts_sanitized {base : List (List Nat)} {q : List Nat}
    (rest : List Nat) (fc total type_flag file_size : Nat) {file_path : List (List Nat)}
    (heq : sanitize_path base q = some file_path) :
    acts_sanitized base
      (extract_materialize base rest fc total type_flag file_size file_path).acts := by
  obtain ⟨-, -, -, -, -, -, hr0⟩ := sanitize_path_some_spec heq
  subst hr0
  simp only [extract_materialize, List.drop_left]
  split
  · intro a ha
    simp only [StepOut.acts] at ha
    exact mkdirChain_full_sanitized heq a ha
  split
  · split
    · intro a ha
      simp only [StepOut.acts] at ha
      exact mkdirChain_dropLast_sanitized heq a ha
    · intro a ha
      simp only [StepOut.acts] at ha
      rcases List.mem_append.mp ha with hm | hm
      · exact mkdirChain_dropLast_sanitized heq a hm
      · rw [List.mem_singleton] at hm
        subst hm
        exact ⟨q, heq⟩
  · split
    · intro a ha
      simp [StepOut.acts] at ha
    · intro a ha
      simp [StepOut.acts] at ha

lemma extract_typed_acts_sanitized (base : List (List Nat)) (header rest : List Nat)
    (fc total : Nat) (name_str pfx_str : List Nat) :
    acts_sanitized base (extract_typed base header rest fc total name_str pfx_str).acts := by
  simp only [extract_typed]
  split
  · intro a ha
    simp [StepOut.acts] at ha
  split
  · intro a ha
    simp [StepOut.acts] at ha
  split
  · intro a ha
    simp [StepOut.acts] at ha
  split
  · intro a ha
    simp [StepOut.acts] at ha
  next file_path heq => exact extract_materialize_acts_sanitized _ _ _ _ _ heq

lemma extract_entry_acts_sanitized (base : List (List Nat)) (header rest : List Nat)
    (fc total : Nat) :
    acts_sanitized base (extract_entry base header rest fc total).acts := by
  simp only [extract_entry]
  split
  · intro a ha
    simp [StepOut.acts] at ha
  split
  · intro a ha
    simp [StepOut.acts] at ha
  split
  · intro a ha
    simp [StepOut.acts] at ha
  exact extract_typed_acts_sanitized _ _ _ _ _ _ _

lemma extract_step_acts_sanitized (base : List (List Nat)) (s : List Nat)
    (fc total : Nat) :
    acts_sanitized base (extract_step base s fc total).acts := by
  simp only [extract_step]
  split
  · intro a ha
    simp [StepOut.acts] at ha
  split
  · intro a ha
    simp [StepOut.acts] at ha
  split
  · intro a ha
    simp [StepOut.acts] at ha
  split
  · intro a ha
    simp [StepOut.acts] at ha
  exact extract_entry_acts_sanitized _ _ _ _ _

lemma extract_loop_acts_sanitized (base : List (List Nat)) (fuel : Nat) :
    ∀ s fc total, acts_sanitized base (extract_loop base fuel s fc total).acts := by
  induction fuel with
  | zero =>
    intro s fc total a ha
    simp [extract_loop] at ha
  | succ fuel ih =>
    intro s fc total a ha
    rw [extract_loop] at ha
    cases hstep : extract_step base s fc total with
    | halt acts bnds err =>
      rw [hstep] at ha
      simp only at ha
      have hone := extract_step_acts_sanitized base s fc total
      rw [hstep] at hone
      exact hone a ha
    | next acts bnd s2 fc2 t2 =>
      rw [hstep] at ha
      simp only at ha
      rcases List.mem_append.mp ha with hm | hm
      · have hone := extract_step_acts_sanitized base s fc total
        rw [hstep] at hone
        exact hone a hm
      · exact ih s2 fc2 t2 a hm

/-- A well-formed archive with one empty regular-file entry `a/b`. -/
def sampleArchive : List Nat := buildHeader (strBytes "a/b") 0 48

/-- C1: `extract` never materializes a filesystem entry outside the
destination directory: every path it materializes (on success and on
error paths alike) is the base directory extended by components the path
sanitizer accepted, and the sanitizer rejects absolute paths, `..`
components, and accepts only paths of the form `base ++ components` with
every component a safe filename (in particular never `..`). -/
theorem extract_never_escapes_dest (base : List (List Nat)) (stream : List Nat) :
    (∀ a ∈ (TgzExtractor.extract base stream).acts,
      ∃ q, sanitize_path base q = some (FsAction.path a)) ∧
    (∀ q, [47].isPrefixOf q = true → sanitize_path base q = none) ∧
    (∀ q, [46, 46] ∈ q.splitOn 47 → sanitize_path base q = none) ∧
    (∀ q r, sanitize_path base q = some r → r = base ++ q.splitOn 47 ∧
      q.splitOn 47 ≠ [] ∧ ∀ c ∈ q.splitOn 47, is_safe_filename c = true ∧ c ≠ [46, 46]) := by
  refine ⟨fun a ha => extract_loop_acts_sanitized base _ stream 0 0 a ha, ?_, ?_, ?_⟩
  · intro q hq
    simp only [sanitize_path]
    split_ifs with c1 c2 c3 c4 c5 c6 <;> try rfl
    exfalso
    apply c3
    simp [hq]
  · intro q hq
    simp only [sanitize_path]
    split_ifs with c1 c2 c3 c4 c5 c6 <;> try rfl
    exfalso
    apply c5
    exact List.any_eq_true.mpr ⟨[46, 46], hq, by decide⟩
  · intro q r hs
    obtain ⟨A1, A2, A3, A4, A5, A6, hr⟩ := sanitize_path_some_spec hs
    refine ⟨hr, List.splitOnP_ne_nil _ q, fun c hc => ?_⟩
    have hsafe : is_safe_filename c = true := by
      have hx := List.any_eq_false.mp A5 c hc
      simpa using hx
    refine ⟨hsafe, fun hcc => ?_⟩
    rw [hcc] at hsafe
    simp [is_safe_filename] at hsafe

set_option maxRecDepth 100000 in
/-- Witness for the no-escape property: the concrete archive writes
`a/b` under the destination, and the sanitizer rejects `/etc/passwd` and
`../x`. -/
theorem extract_never_escapes_dest_witness :
    (FsAction.writeFile [strBytes "a", strBytes "b"] [] ∈
      (TgzExtractor.extract [] sampleArchive).acts ∧
      ∃ q, sanitize_path [] q = some (FsAction.path
        (FsAction.writeFile [strBytes "a", strBytes "b"] []))) ∧
    sanitize_path [] (strBytes "/etc/passwd") = none ∧
    sanitize_path [] (strBytes "../x") = none := by
  obtain ⟨h1, h2, h3, h4⟩ := extract_never_escapes_dest [] sampleArchive
  exact ⟨⟨by decide, h1 _ (by decide)⟩, h2 _ (by decide), h3 _ (by decide)⟩

def bounded (b : Nat × Nat) : Prop :=
  b.1 ≤ Config.TGZ_MAX_FILES ∧ b.2 ≤ Config.TGZ_MAX_TOTAL_SIZE

lemma extract_materialize_inv (base : List (List Nat)) (rest : List Nat)
    (fc total tf fs : Nat) (fp : List (List Nat))
    (hfc : fc ≤ Config.TGZ_MAX_FILES) (htot : total ≤ Config.TGZ_MAX_TOTAL_SIZE)
    (hquota : total + fs ≤ Config.TGZ_MAX_TOTAL_SIZE) :
    (∀ a bs e, extract_materialize base rest fc total tf fs fp = .halt a bs e →
      ∀ b ∈ bs, bounded b) ∧
    (∀ a bnd s2 fc2 t2, extract_materialize base rest fc total tf fs fp = .next a bnd s2 fc2 t2 →
      bounded bnd ∧ fc2 ≤ Config.TGZ_MAX_FILES ∧ t2 ≤ Config.TGZ_MAX_TOTAL_SIZE) := by
  have hmod : (total + fs) % 2 ^ 64 = total + fs := by
    apply Nat.mod_eq_of_lt
    have : Config.TGZ_MAX_TOTAL_SIZE < 2 ^ 64 := by decide
    omega
  constructor
  · intro a bs e hE
    simp only [extract_materialize] at hE
    split at hE
    · simp at hE
    split at hE
    · split at hE
      · injection hE with h1 h2 h3
        subst h2
        intro b hb
        rw [List.mem_singleton] at hb
        subst hb
        exact ⟨hfc, htot⟩
      · simp at hE
    · split at hE
      · injection hE with h1 h2 h3
        subst h2
        intro b hb
        rw [List.mem_singleton] at hb
        subst hb
        exact ⟨hfc, htot⟩
      · simp at hE
  · intro a bnd s2 fc2 t2 hE
    simp only [extract_materialize] at hE
    split at hE
    · injection hE with h1 h2 h3 h4 h5
      subst h2
      subst h4
      subst h5
      exact ⟨⟨hfc, htot⟩, hfc, htot⟩
    split at hE
    · split at hE
      · simp at hE
      · injection hE with h1 h2 h3 h4 h5
        subst h2
        subst h4
        subst h5
        refine ⟨⟨hfc, htot⟩, hfc, ?_⟩
        rw [hmod]
        omega
    · split at hE
      · simp at hE
      · injection hE with h1 h2 h3 h4 h5
        subst h2
        subst h4
        subst h5
        refine ⟨⟨hfc, htot⟩, hfc, ?_⟩
        rw [hmod]
        omega

lemma extract_typed_inv (base : List (List Nat)) (header rest : List Nat)
    (fc total : Nat) (nm px : List Nat)
    (hfc : fc ≤ Config.TGZ_MAX_FILES) (htot : total ≤ Config.TGZ_MAX_TOTAL_SIZE) :
    (∀ a bs e, extract_typed base header rest fc total nm px = .halt a bs e →
      ∀ b ∈ bs, bounded b) ∧
    (∀ a bnd s2 fc2 t2, extract_typed base header rest fc total nm px = .next a bnd s2 fc2 t2 →
      bounded bnd ∧ fc2 ≤ Config.TGZ_MAX_FILES ∧ t2 ≤ Config.TGZ_MAX_TOTAL_SIZE) := by
  have hM : Config.TGZ_MAX_TOTAL_SIZE < 2 ^ 64 := by decide
  constructor
  · intro a bs e hE
    simp only [extract_typed] at hE
    split at hE
    · injection hE with h1 h2 h3
      subst h2
      intro b hb
      rw [List.mem_singleton] at hb
      subst hb
      exact ⟨hfc, htot⟩
    split at hE
    · injection hE with h1 h2 h3
      subst h2
      intro b hb
      rw [List.mem_singleton] at hb
      subst hb
      exact ⟨hfc, htot⟩
    split at hE
    · injection hE with h1 h2 h3
      subst h2
      intro b hb
      rw [List.mem_singleton] at hb
      subst hb
      exact ⟨hfc, htot⟩
    next hq =>
      split at hE
      · injection hE with h1 h2 h3
        subst h2
        intro b hb
        rw [List.mem_singleton] at hb
        subst hb
        exact ⟨hfc, htot⟩
      · have hquota : total + parse_octal (subspan header Config.TAR_SIZE_OFFSET
            Config.TAR_SIZE_LENGTH) ≤ Config.TGZ_MAX_TOTAL_SIZE := by
          simp at hq
          omega
        exact (extract_materialize_inv base rest fc total _ _ _ hfc htot hquota).1 a bs e hE
  · intro a bnd s2 fc2 t2 hE
    simp only [extract_typed] at hE
    split at hE
    · simp at hE
    split at hE
    · simp at hE
    split at hE
    · simp at hE
    next hq =>
      split at hE
      · simp at hE
      · have hquota : total + parse_octal (subspan header Config.TAR_SIZE_OFFSET
            Config.TAR_SIZE_LENGTH) ≤ Config.TGZ_MAX_TOTAL_SIZE := by
          simp at hq
          omega
        exact (extract_materialize_inv base rest fc total _ _ _ hfc htot hquota).2 a bnd s2 fc2 t2 hE

lemma extract_entry_inv (base : List (List Nat)) (header rest : List Nat)
    (fc total : Nat)
    (hfc : fc ≤ Config.TGZ_MAX_FILES) (htot : total ≤ Config.TGZ_MAX_TOTAL_SIZE) :
    (∀ a bs e, extract_entry base header rest fc total = .halt a bs e →
      ∀ b ∈ bs, bounded b) ∧
    (∀ a bnd s2 fc2 t2, extract_entry base header rest fc total = .next a bnd s2 fc2 t2 →
      bounded bnd ∧ fc2 ≤ Config.TGZ_MAX_FILES ∧ t2 ≤ Config.TGZ_MAX_TOTAL_SIZE) := by
  constructor
  · intro a bs e hE
    simp only [extract_entry] at hE
    split at hE
    · injection hE with h1 h2 h3
      subst h2
      intro b hb
      rw [List.mem_singleton] at hb
      subst hb
      exact ⟨hfc, htot⟩
    split at hE
    · injection hE with h1 h2 h3
      subst h2
      intro b hb
      rw [List.mem_singleton] at hb
      subst hb
      exact ⟨hfc, htot⟩
    split at hE
    · injection hE with h1 h2 h3
      subst h2
      intro b hb
      rw [List.mem_singleton] at hb
      subst hb
      exact ⟨hfc, htot⟩
    · exact (extract_typed_inv base header rest fc total _ _ hfc htot).1 a bs e hE
  · intro a bnd s2 fc2 t2 hE
    simp only [extract_entry] at hE
    split at hE
    · simp at hE
    split at hE
    · simp at hE
    split at hE
    · simp at hE
    · exact (extract_typed_inv base header rest fc total _ _ hfc htot).2 a bnd s2 fc2 t2 hE

lemma extract_step_inv (base : List (List Nat)) (s : List Nat)
    (file_count total : Nat) (htot : total ≤ Config.TGZ_MAX_TOTAL_SIZE) :
    (∀ a bs e, extract_step base s file_count total = .halt a bs e →
      ∀ b ∈ bs, bounded b) ∧
    (∀ a bnd s2 fc2 t2, extract_step base s file_count total = .next a bnd s2 fc2 t2 →
      bounded bnd ∧ fc2 ≤ Config.TGZ_MAX_FILES ∧ t2 ≤ Config.TGZ_MAX_TOTAL_SIZE) := by
  constructor
  · intro a bs e hE
    simp only [extract_step] at hE
    split at hE
    · injection hE with h1 h2 h3
      subst h2
      simp
    split at hE
    · injection hE with h1 h2 h3
      subst h2
      simp
    split at hE
    · injection hE with h1 h2 h3
      subst h2
      simp
    split at hE
    · injection hE with h1 h2 h3
      subst h2
      simp
    next hcount =>
      have hfc : (file_count + 1) % 2 ^ 32 ≤ Config.TGZ_MAX_FILES := by
        simp at hcount
        omega
      exact (extract_entry_inv base _ _ _ total hfc htot).1 a bs e hE
  · intro a bnd s2 fc2 t2 hE
    simp only [extract_step] at hE
    split at hE
    · simp at hE
    split at hE
    · simp at hE
    split at hE
    · simp at hE
    split at hE
    · simp at hE
    next hcount =>
      have hfc : (file_count + 1) % 2 ^ 32 ≤ Config.TGZ_MAX_FILES := by
        simp at hcount
        omega
      exact (extract_entry_inv base _ _ _ total hfc htot).2 a bnd s2 fc2 t2 hE

lemma extract_loop_boundaries_bounded (base : List (List Nat)) (fuel : Nat) :
    ∀ s fc total, total ≤ Config.TGZ_MAX_TOTAL_SIZE →
      ∀ b ∈ (extract_loop base fuel s fc total).boundaries, bounded b := by
  induction fuel with
  | zero =>
    intro s fc total htot b hb
    simp [extract_loop] at hb
  | succ fuel ih =>
    intro s fc total htot b hb
    rw [extract_loop] at hb
    cases hstep : extract_step base s fc total with
    | halt acts bnds err =>
      rw [hstep] at hb
      simp only at hb
      exact (extract_step_inv base s fc total htot).1 acts bnds err hstep b hb
    | next acts bnd s2 fc2 t2 =>
      rw [hstep] at hb
      simp only at hb
      obtain ⟨hbd, hfc2, ht2⟩ := (extract_step_inv base s fc total htot).2 acts bnd s2 fc2 t2 hstep
      rcases List.mem_cons.mp hb with hb | hb
      · subst hb
        exact hbd
      · exact ih s2 fc2 t2 ht2 b hb

lemma extract_step_run (base : List (List Nat)) (s : List Nat) (file_count total : Nat)
    (h1 : s.isEmpty = false)
    (h2 : decide (s.length < Config.TAR_BLOCK_SIZE) = false)
    (h3 : (s.take Config.TAR_BLOCK_SIZE).all (fun b => b == 0) = false)
    (h4 : decide ((file_count + 1) % 2 ^ 32 > Config.TGZ_MAX_FILES) = false) :
    extract_step base s file_count total =
      extract_entry base (s.take Config.TAR_BLOCK_SIZE) (s.drop Config.TAR_BLOCK_SIZE)
        ((file_count + 1) % 2 ^ 32) total := by
  simp only [extract_step, h1, h2, h3, h4, Bool.false_eq_true, if_false]

lemma extract_entry_run (base : List (List Nat)) (header rest : List Nat)
    (fc total : Nat) (nm px : List Nat)
    (h5 : validate_checksum header = true)
    (h6 : get_safe_string (subspan header Config.TAR_NAME_OFFSET Config.TAR_NAME_LENGTH) =
      some nm)
    (h7 : get_safe_string (subspan header Config.TAR_PREFIX_OFFSET Config.TAR_PREFIX_LENGTH) =
      some px) :
    extract_entry base header rest fc total = extract_typed base header rest fc total nm px := by
  simp only [extract_entry, h5, h6, h7, Bool.not_true, Bool.false_eq_true, if_false]

lemma extract_loop_step_halt (base : List (List Nat)) (fuel : Nat) (s : List Nat)
    (fc total : Nat) (a : List FsAction) (bs : List (Nat × Nat)) (e : Option ExtractError)
    (h : extract_step base s fc total = .halt a bs e) :
    extract_loop base (fuel + 1) s fc total = ⟨a, bs, e⟩ := by
  rw [extract_loop, h]

lemma extract_typed_size_halt (base : List (List Nat)) (header rest : List Nat)
    (fc total : Nat) (nm px : List Nat)
    (ht : (header.getD Config.TAR_TYPE_OFFSET 0 == 49 ||
      header.getD Config.TAR_TYPE_OFFSET 0 == 50) = false)
    (hs : decide (parse_octal (subspan header Config.TAR_SIZE_OFFSET Config.TAR_SIZE_LENGTH) >
      Config.TGZ_MAX_FILE_SIZE) = true) :
    extract_typed base header rest fc total nm px =
      .halt [] [(fc, total)] (some .FileTooLarge) := by
  simp only [extract_typed, ht, hs, Bool.false_eq_true, if_false, if_true]

lemma extract_typed_total_halt (base : List (List Nat)) (header rest : List Nat)
    (fc total : Nat) (nm px : List Nat)
    (ht : (header.getD Config.TAR_TYPE_OFFSET 0 == 49 ||
      header.getD Config.TAR_TYPE_OFFSET 0 == 50) = false)
    (hs : decide (parse_octal (subspan header Config.TAR_SIZE_OFFSET Config.TAR_SIZE_LENGTH) >
      Config.TGZ_MAX_FILE_SIZE) = false)
    (hq : decide (parse_octal (subspan header Config.TAR_SIZE_OFFSET Config.TAR_SIZE_LENGTH) >
      (Config.TGZ_MAX_TOTAL_SIZE + 2 ^ 64 - total) % 2 ^ 64) = true) :
    extract_typed base header rest fc total nm px =
      .halt [] [(fc, total)] (some .ArchiveTooLarge) := by
  simp only [extract_typed, ht, hs, hq, Bool.false_eq_true, if_false, if_true]

lemma extract_typed_symlink_halt (base : List (List Nat)) (header rest : List Nat)
    (fc total : Nat) (nm px : List Nat)
    (ht : (header.getD Config.TAR_TYPE_OFFSET 0 == 49 ||
      header.getD Config.TAR_TYPE_OFFSET 0 == 50) = true) :
    extract_typed base header rest fc total nm px =
      .halt [] [(fc, total)] (some .SymlinkDetected) := by
  simp only [extract_typed, ht, if_true]

lemma extract_loop_step_next (base : List (List Nat)) (fuel : Nat) (s : List Nat)
    (fc total : Nat) (a : List FsAction) (bnd : Nat × Nat) (s2 : List Nat) (fc2 t2 : Nat)
    (h : extract_step base s fc total = .next a bnd s2 fc2 t2) :
    extract_loop base (fuel + 1) s fc total =
      ⟨a ++ (extract_loop base fuel s2 fc2 t2).acts,
       bnd :: (extract_loop base fuel s2 fc2 t2).boundaries,
       (extract_loop base fuel s2 fc2 t2).err⟩ := by
  rw [extract_loop, h]

lemma extract_step_count_halt (base : List (List Nat)) (s : List Nat)
    (file_count total : Nat)
    (h1 : s.isEmpty = false)
    (h2 : decide (s.length < Config.TAR_BLOCK_SIZE) = false)
    (h3 : (s.take Config.TAR_BLOCK_SIZE).all (fun b => b == 0) = false)
    (hcnt : decide ((file_count + 1) % 2 ^ 32 > Config.TGZ_MAX_FILES) = true) :
    extract_step base s file_count total = .halt [] [] (some .ArchiveTooLarge) := by
  simp only [extract_step, h1, h2, h3, hcnt, Bool.false_eq_true, if_false, if_true]

lemma extract_typed_run (base : List (List Nat)) (header rest : List Nat)
    (fc total : Nat) (nm px : List Nat) (fp : List (List Nat))
    (ht : (header.getD Config.TAR_TYPE_OFFSET 0 == 49 ||
      header.getD Config.TAR_TYPE_OFFSET 0 == 50) = false)
    (hs : decide (parse_octal (subspan header Config.TAR_SIZE_OFFSET Config.TAR_SIZE_LENGTH) >
      Config.TGZ_MAX_FILE_SIZE) = false)
    (hq : decide (parse_octal (subspan header Config.TAR_SIZE_OFFSET Config.TAR_SIZE_LENGTH) >
      (Config.TGZ_MAX_TOTAL_SIZE + 2 ^ 64 - total) % 2 ^ 64) = false)
    (hsan : sanitize_path base (if !px.isEmpty then px ++ 47 :: nm else nm) = some fp) :
    extract_typed base header rest fc total nm px =
      extract_materialize base rest fc total (header.getD Config.TAR_TYPE_OFFSET 0)
        (parse_octal (subspan header Config.TAR_SIZE_OFFSET Config.TAR_SIZE_LENGTH)) fp := by
  simp only [extract_typed, ht, hs, hq, hsan, Bool.false_eq_true, if_false]

lemma extract_materialize_skip (base : List (List Nat)) (rest : List Nat)
    (fc total tf fs : Nat) (fp : List (List Nat))
    (h53 : (tf == 53) = false)
    (h48 : (tf == 48 || tf == 0) = false)
    (hg : decide ((fs + Config.TAR_BLOCK_SIZE - 1) / Config.TAR_BLOCK_SIZE >
      (2 ^ 63 - 1) / Config.TAR_BLOCK_SIZE) = false) :
    extract_materialize base rest fc total tf fs fp =
      .next [] (fc, total)
        (rest.drop (((fs + Config.TAR_BLOCK_SIZE - 1) / Config.TAR_BLOCK_SIZE) *
          Config.TAR_BLOCK_SIZE)) fc ((total + fs) % 2 ^ 64) := by
  simp only [extract_materialize, h53, h48, hg, Bool.false_eq_true, if_false]

/-- C3: at every header boundary of an extraction the running counters
satisfy `files_seen ≤ 10000` and `bytes_extracted ≤ 500 MiB`; a header
read with the counter already at 10,000 files (the 10,001st header)
yields `ArchiveTooLarge`; an entry whose parsed size exceeds 100 MiB
yields `FileTooLarge`; an entry whose size would push the running total
past 500 MiB yields `ArchiveTooLarge`. -/
theorem extract_quota_limits :
    (∀ base stream, ∀ b ∈ (TgzExtractor.extract base stream).boundaries,
      b.1 ≤ Config.TGZ_MAX_FILES ∧ b.2 ≤ Config.TGZ_MAX_TOTAL_SIZE) ∧
    (∀ base fuel s total,
      s.isEmpty = false →
      decide (s.length < Config.TAR_BLOCK_SIZE) = false →
      (s.take Config.TAR_BLOCK_SIZE).all (fun b => b == 0) = false →
      extract_loop base (fuel + 1) s Config.TGZ_MAX_FILES total =
        ⟨[], [], some .ArchiveTooLarge⟩) ∧
    (∀ base fuel s fc total nm px,
      s.isEmpty = false →
      decide (s.length < Config.TAR_BLOCK_SIZE) = false →
      (s.take Config.TAR_BLOCK_SIZE).all (fun b => b == 0) = false →
      decide ((fc + 1) % 2 ^ 32 > Config.TGZ_MAX_FILES) = false →
      validate_checksum (s.take Config.TAR_BLOCK_SIZE) = true →
      get_safe_string (subspan (s.take Config.TAR_BLOCK_SIZE) Config.TAR_NAME_OFFSET
        Config.TAR_NAME_LENGTH) = some nm →
      get_safe_string (subspan (s.take Config.TAR_BLOCK_SIZE) Config.TAR_PREFIX_OFFSET
        Config.TAR_PREFIX_LENGTH) = some px →
      ((s.take Config.TAR_BLOCK_SIZE).getD Config.TAR_TYPE_OFFSET 0 == 49 ||
        (s.take Config.TAR_BLOCK_SIZE).getD Config.TAR_TYPE_OFFSET 0 == 50) = false →
      decide (parse_octal (subspan (s.take Config.TAR_BLOCK_SIZE) Config.TAR_SIZE_OFFSET
        Config.TAR_SIZE_LENGTH) > Config.TGZ_MAX_FILE_SIZE) = true →
      extract_loop base (fuel + 1) s fc total =
        ⟨[], [((fc + 1) % 2 ^ 32, total)], some .FileTooLarge⟩) ∧
    (∀ base fuel s fc total nm px,
      s.isEmpty = false →
      decide (s.length < Config.TAR_BLOCK_SIZE) = false →
      (s.take Config.TAR_BLOCK_SIZE).all (fun b => b == 0) = false →
      decide ((fc + 1) % 2 ^ 32 > Config.TGZ_MAX_FILES) = false →
      validate_checksum (s.take Config.TAR_BLOCK_SIZE) = true →
      get_safe_string (subspan (s.take Config.TAR_BLOCK_SIZE) Config.TAR_NAME_OFFSET
        Config.TAR_NAME_LENGTH) = some nm →
      get_safe_string (subspan (s.take Config.TAR_BLOCK_SIZE) Config.TAR_PREFIX_OFFSET
        Config.TAR_PREFIX_LENGTH) = some px →
      ((s.take Config.TAR_BLOCK_SIZE).getD Config.TAR_TYPE_OFFSET 0 == 49 ||
        (s.take Config.TAR_BLOCK_SIZE).getD Config.TAR_TYPE_OFFSET 0 == 50) = false →
      decide (parse_octal (subspan (s.take Config.TAR_BLOCK_SIZE) Config.TAR_SIZE_OFFSET
        Config.TAR_SIZE_LENGTH) > Config.TGZ_MAX_FILE_SIZE) = false →
      decide (parse_octal (subspan (s.take Config.TAR_BLOCK_SIZE) Config.TAR_SIZE_OFFSET
        Config.TAR_SIZE_LENGTH) > (Config.TGZ_MAX_TOTAL_SIZE + 2 ^ 64 - total) % 2 ^ 64) =
        true →
      extract_loop base (fuel + 1) s fc total =
        ⟨[], [((fc + 1) % 2 ^ 32, total)], some .ArchiveTooLarge⟩) := by
  refine ⟨?_, ?_, ?_, ?_⟩
  · intro base stream b hb
    exact extract_loop_boundaries_bounded base _ stream 0 0 (by simp [Config.TGZ_MAX_TOTAL_SIZE])
      b hb
  · intro base fuel s total h1 h2 h3
    exact extract_loop_step_halt base fuel s _ total _ _ _
      (extract_step_count_halt base s _ total h1 h2 h3 (by decide))
  · intro base fuel s fc total nm px h1 h2 h3 h4 h5 h6 h7 ht hs
    have hstep := extract_step_run base s fc total h1 h2 h3 h4
    rw [extract_entry_run base _ _ _ total nm px h5 h6 h7,
      extract_typed_size_halt base _ _ _ total nm px ht hs] at hstep
    exact extract_loop_step_halt base fuel s fc total _ _ _ hstep
  · intro base fuel s fc total nm px h1 h2 h3 h4 h5 h6 h7 ht hs hq
    have hstep := extract_step_run base s fc total h1 h2 h3 h4
    rw [extract_entry_run base _ _ _ total nm px h5 h6 h7,
      extract_typed_total_halt base _ _ _ total nm px ht hs hq] at hstep
    exact extract_loop_step_halt base fuel s fc total _ _ _ hstep

set_option maxRecDepth 100000 in
set_option maxHeartbeats 4000000 in
/-- Witness for the quota limits: a boundary of a concrete extraction is
bounded; a one-entry block at file count 10,000 aborts; an entry of size
`8 ^ 9` bytes (> 100 MiB) aborts; a 1-byte entry at a 500 MiB running
total aborts. -/
theorem extract_quota_limits_witness :
    ((1, 0) ∈ (TgzExtractor.extract [] sampleArchive).boundaries ∧
      (1, 0).1 ≤ Config.TGZ_MAX_FILES ∧ (1, 0).2 ≤ Config.TGZ_MAX_TOTAL_SIZE) ∧
    extract_loop [] 1 (buildHeader (strBytes "x") 0 48) Config.TGZ_MAX_FILES 0 =
      ⟨[], [], some .ArchiveTooLarge⟩ ∧
    extract_loop [] 1 (buildHeader (strBytes "big") (8 ^ 9) 48) 0 0 =
      ⟨[], [((0 + 1) % 2 ^ 32, 0)], some .FileTooLarge⟩ ∧
    extract_loop [] 1 (buildHeader (strBytes "f") 1 48) 0 Config.TGZ_MAX_TOTAL_SIZE =
      ⟨[], [((0 + 1) % 2 ^ 32, Config.TGZ_MAX_TOTAL_SIZE)], some .ArchiveTooLarge⟩ := by
  obtain ⟨ha, hb, hc, hd⟩ := extract_quota_limits
  refine ⟨⟨by decide, ha [] sampleArchive (1, 0) (by decide)⟩, ?_, ?_, ?_⟩
  · exact hb [] 0 (buildHeader (strBytes "x") 0 48) 0 (by decide) (by decide) (by decide)
  · exact hc [] 0 (buildHeader (strBytes "big") (8 ^ 9) 48) 0 0 (strBytes "big") []
      (by decide) (by decide) (by decide) (by decide) (by decide) (by decide) (by decide)
      (by decide) (by decide)
  · exact hd [] 0 (buildHeader (strBytes "f") 1 48) 0 Config.TGZ_MAX_TOTAL_SIZE
      (strBytes "f") [] (by decide) (by decide) (by decide) (by decide) (by decide)
      (by decide) (by decide) (by decide) (by decide) (by decide)

/-- Archive whose first entry is a path-traversal attempt and whose
second, well-formed entry is a symbolic link (type flag `'2'`). -/
def travThenLinkArchive : List Nat :=
  buildHeader (strBytes "../x") 0 48 ++ buildHeader (strBytes "link") 0 50

set_option maxRecDepth 100000 in
set_option maxHeartbeats 4000000 in
/-- C2 counterexample: this archive contains an entry whose type flag is
`'2'` (a well-formed one: its checksum validates), yet `extract` returns
`PathTraversalDetected`, not `SymlinkDetected`, because the earlier entry
aborts the extraction first.  The claim as stated — every archive
containing a link entry makes `extract` return `SymlinkDetected` — is
therefore false. -/
theorem extract_symlink_claim_counterexample :
    validate_checksum (subspan travThenLinkArchive Config.TAR_BLOCK_SIZE
      Config.TAR_BLOCK_SIZE) = true ∧
    (subspan travThenLinkArchive Config.TAR_BLOCK_SIZE
      Config.TAR_BLOCK_SIZE).getD Config.TAR_TYPE_OFFSET 0 = 50 ∧
    (TgzExtractor.extract [] travThenLinkArchive).err = some .PathTraversalDetected ∧
    (TgzExtractor.extract [] travThenLinkArchive).err ≠ some .SymlinkDetected := by
  exact ⟨by decide, by decide, by decide, by decide⟩

/-- C2 (amended): whenever extraction reaches an entry whose type flag is
`'1'` (hard link) or `'2'` (symbolic link) — the entry passes the
file-count, checksum and name/prefix checks — the entire extraction fails
at that entry with `SymlinkDetected` and the entry materializes nothing;
and on every input the extractor only ever materializes directories and
regular files, never a symbolic or hard link. -/
theorem extract_symlink_aborts :
    (∀ base fuel s fc total nm px,
      s.isEmpty = false →
      decide (s.length < Config.TAR_BLOCK_SIZE) = false →
      (s.take Config.TAR_BLOCK_SIZE).all (fun b => b == 0) = false →
      decide ((fc + 1) % 2 ^ 32 > Config.TGZ_MAX_FILES) = false →
      validate_checksum (s.take Config.TAR_BLOCK_SIZE) = true →
      get_safe_string (subspan (s.take Config.TAR_BLOCK_SIZE) Config.TAR_NAME_OFFSET
        Config.TAR_NAME_LENGTH) = some nm →
      get_safe_string (subspan (s.take Config.TAR_BLOCK_SIZE) Config.TAR_PREFIX_OFFSET
        Config.TAR_PREFIX_LENGTH) = some px →
      ((s.take Config.TAR_BLOCK_SIZE).getD Config.TAR_TYPE_OFFSET 0 == 49 ||
        (s.take Config.TAR_BLOCK_SIZE).getD Config.TAR_TYPE_OFFSET 0 == 50) = true →
      extract_loop base (fuel + 1) s fc total =
        ⟨[], [((fc + 1) % 2 ^ 32, total)], some .SymlinkDetected⟩) ∧
    (∀ base stream a, a ∈ (TgzExtractor.extract base stream).acts →
      (∃ p, a = FsAction.mkdir p) ∨ (∃ p c, a = FsAction.writeFile p c)) := by
  constructor
  · intro base fuel s fc total nm px h1 h2 h3 h4 h5 h6 h7 ht
    have hstep := extract_step_run base s fc total h1 h2 h3 h4
    rw [extract_entry_run base _ _ _ total nm px h5 h6 h7,
      extract_typed_symlink_halt base _ _ _ total nm px ht] at hstep
    exact extract_loop_step_halt base fuel s fc total _ _ _ hstep
  · intro base stream a ha
    cases a with
    | mkdir p => exact Or.inl ⟨p, rfl⟩
    | writeFile p c => exact Or.inr ⟨p, c, rfl⟩

set_option maxRecDepth 100000 in
set_option maxHeartbeats 4000000 in
/-- Witness for the amended symlink behavior: a single symbolic-link
entry aborts immediately with `SymlinkDetected`. -/
theorem extract_symlink_aborts_witness :
    extract_loop [] 1 (buildHeader (strBytes "link") 0 50) 0 0 =
      ⟨[], [((0 + 1) % 2 ^ 32, 0)], some .SymlinkDetected⟩ ∧
    ((FsAction.writeFile [strBytes "a", strBytes "b"] [] ∈
        (TgzExtractor.extract [] sampleArchive).acts) ∧
      ((∃ p, FsAction.writeFile [strBytes "a", strBytes "b"] [] = FsAction.mkdir p) ∨
        (∃ p c, FsAction.writeFile [strBytes "a", strBytes "b"] [] =
          FsAction.writeFile p c))) := by
  obtain ⟨h1, h2⟩ := extract_symlink_aborts
  refine ⟨?_, by decide, h2 [] sampleArchive _ (by decide)⟩
  exact h1 [] 0 (buildHeader (strBytes "link") 0 50) 0 0 (strBytes "link") []
    (by decide) (by decide) (by decide) (by decide) (by decide) (by decide) (by decide)
    (by decide)

/-- C10: an entry whose type flag is neither regular file (`'0'`/NUL),
directory (`'5'`), hard link (`'1'`) nor symbolic link (`'2'`) is
skipped: the payload is seeked over in whole 512-byte blocks, nothing is
materialized, but the entry's size field is still added to the running
extracted-bytes total — skipped payloads consume the 500 MiB archive
quota exactly as if they had been extracted. -/
theorem extract_other_type_consumes_quota (base : List (List Nat)) (fuel : Nat)
    (s : List Nat) (fc total : Nat) (nm px : List Nat) (fp : List (List Nat))
    (h1 : s.isEmpty = false)
    (h2 : decide (s.length < Config.TAR_BLOCK_SIZE) = false)
    (h3 : (s.take Config.TAR_BLOCK_SIZE).all (fun b => b == 0) = false)
    (h4 : decide ((fc + 1) % 2 ^ 32 > Config.TGZ_MAX_FILES) = false)
    (h5 : validate_checksum (s.take Config.TAR_BLOCK_SIZE) = true)
    (h6 : get_safe_string (subspan (s.take Config.TAR_BLOCK_SIZE) Config.TAR_NAME_OFFSET
      Config.TAR_NAME_LENGTH) = some nm)
    (h7 : get_safe_string (subspan (s.take Config.TAR_BLOCK_SIZE) Config.TAR_PREFIX_OFFSET
      Config.TAR_PREFIX_LENGTH) = some px)
    (h12 : ((s.take Config.TAR_BLOCK_SIZE).getD Config.TAR_TYPE_OFFSET 0 == 49 ||
      (s.take Config.TAR_BLOCK_SIZE).getD Config.TAR_TYPE_OFFSET 0 == 50) = false)
    (hs : decide (parse_octal (subspan (s.take Config.TAR_BLOCK_SIZE) Config.TAR_SIZE_OFFSET
      Config.TAR_SIZE_LENGTH) > Config.TGZ_MAX_FILE_SIZE) = false)
    (hq : decide (parse_octal (subspan (s.take Config.TAR_BLOCK_SIZE) Config.TAR_SIZE_OFFSET
      Config.TAR_SIZE_LENGTH) > (Config.TGZ_MAX_TOTAL_SIZE + 2 ^ 64 - total) % 2 ^ 64) =
      false)
    (hsan : sanitize_path base (if !px.isEmpty then px ++ 47 :: nm else nm) = some fp)
    (h53 : ((s.take Config.TAR_BLOCK_SIZE).getD Config.TAR_TYPE_OFFSET 0 == 53) = false)
    (h48 : ((s.take Config.TAR_BLOCK_SIZE).getD Config.TAR_TYPE_OFFSET 0 == 48 ||
      (s.take Config.TAR_BLOCK_SIZE).getD Config.TAR_TYPE_OFFSET 0 == 0) = false)
    (hg : decide ((parse_octal (subspan (s.take Config.TAR_BLOCK_SIZE) Config.TAR_SIZE_OFFSET
      Config.TAR_SIZE_LENGTH) + Config.TAR_BLOCK_SIZE - 1) / Config.TAR_BLOCK_SIZE >
      (2 ^ 63 - 1) / Config.TAR_BLOCK_SIZE) = false) :
    extract_loop base (fuel + 1) s fc total =
      ⟨(extract_loop base fuel ((s.drop Config.TAR_BLOCK_SIZE).drop
          (((parse_octal (subspan (s.take Config.TAR_BLOCK_SIZE) Config.TAR_SIZE_OFFSET
            Config.TAR_SIZE_LENGTH) + Config.TAR_BLOCK_SIZE - 1) / Config.TAR_BLOCK_SIZE) *
            Config.TAR_BLOCK_SIZE)) ((fc + 1) % 2 ^ 32)
          ((total + parse_octal (subspan (s.take Config.TAR_BLOCK_SIZE)
            Config.TAR_SIZE_OFFSET Config.TAR_SIZE_LENGTH)) % 2 ^ 64)).acts,
       ((fc + 1) % 2 ^ 32, total) ::
        (extract_loop base fuel ((s.drop Config.TAR_BLOCK_SIZE).drop
          (((parse_octal (subspan (s.take Config.TAR_BLOCK_SIZE) Config.TAR_SIZE_OFFSET
            Config.TAR_SIZE_LENGTH) + Config.TAR_BLOCK_SIZE - 1) / Config.TAR_BLOCK_SIZE) *
            Config.TAR_BLOCK_SIZE)) ((fc + 1) % 2 ^ 32)
          ((total + parse_octal (subspan (s.take Config.TAR_BLOCK_SIZE)
            Config.TAR_SIZE_OFFSET Config.TAR_SIZE_LENGTH)) % 2 ^ 64)).boundaries,
       (extract_loop base fuel ((s.drop Config.TAR_BLOCK_SIZE).drop
          (((parse_octal (subspan (s.take Config.TAR_BLOCK_SIZE) Config.TAR_SIZE_OFFSET
            Config.TAR_SIZE_LENGTH) + Config.TAR_BLOCK_SIZE - 1) / Config.TAR_BLOCK_SIZE) *
            Config.TAR_BLOCK_SIZE)) ((fc + 1) % 2 ^ 32)
          ((total + parse_octal (subspan (s.take Config.TAR_BLOCK_SIZE)
            Config.TAR_SIZE_OFFSET Config.TAR_SIZE_LENGTH)) % 2 ^ 64)).err⟩ := by
  have hstep := extract_step_run base s fc total h1 h2 h3 h4
  rw [extract_entry_run base _ _ _ total nm px h5 h6 h7,
    extract_typed_run base _ _ _ total nm px fp h12 hs hq hsan,
    extract_materialize_skip base _ _ total _ _ fp h53 h48 hg] at hstep
  have := extract_loop_step_next base fuel s fc total _ _ _ _ _ hstep
  simpa using this

set_option maxRecDepth 100000 in
set_option maxHeartbeats 8000000 in
/-- Witness for the skipped-type quota consumption: a single entry of
type flag `'7'` with a 600-byte payload is skipped (1024 bytes of blocks)
while charging 600 bytes to the quota. -/
theorem extract_other_type_consumes_quota_witness :
    extract_loop [] 1 (buildHeader (strBytes "o") 600 55) 0 0 =
      ⟨(extract_loop [] 0 (((buildHeader (strBytes "o") 600 55).drop
          Config.TAR_BLOCK_SIZE).drop
          (((parse_octal (subspan ((buildHeader (strBytes "o") 600 55).take
            Config.TAR_BLOCK_SIZE) Config.TAR_SIZE_OFFSET Config.TAR_SIZE_LENGTH) +
            Config.TAR_BLOCK_SIZE - 1) / Config.TAR_BLOCK_SIZE) * Config.TAR_BLOCK_SIZE))
          ((0 + 1) % 2 ^ 32)
          ((0 + parse_octal (subspan ((buildHeader (strBytes "o") 600 55).take
            Config.TAR_BLOCK_SIZE) Config.TAR_SIZE_OFFSET Config.TAR_SIZE_LENGTH)) %
            2 ^ 64)).acts,
       ((0 + 1) % 2 ^ 32, 0) ::
        (extract_loop [] 0 (((buildHeader (strBytes "o") 600 55).drop
          Config.TAR_BLOCK_SIZE).drop
          (((parse_octal (subspan ((buildHeader (strBytes "o") 600 55).take
            Config.TAR_BLOCK_SIZE) Config.TAR_SIZE_OFFSET Config.TAR_SIZE_LENGTH) +
            Config.TAR_BLOCK_SIZE - 1) / Config.TAR_BLOCK_SIZE) * Config.TAR_BLOCK_SIZE))
          ((0 + 1) % 2 ^ 32)
          ((0 + parse_octal (subspan ((buildHeader (strBytes "o") 600 55).take
            Config.TAR_BLOCK_SIZE) Config.TAR_SIZE_OFFSET Config.TAR_SIZE_LENGTH)) %
            2 ^ 64)).boundaries,
       (extract_loop [] 0 (((buildHeader (strBytes "o") 600 55).drop
          Config.TAR_BLOCK_SIZE).drop
          (((parse_octal (subspan ((buildHeader (strBytes "o") 600 55).take
            Config.TAR_BLOCK_SIZE) Config.TAR_SIZE_OFFSET Config.TAR_SIZE_LENGTH) +
            Config.TAR_BLOCK_SIZE - 1) / Config.TAR_BLOCK_SIZE) * Config.TAR_BLOCK_SIZE))
          ((0 + 1) % 2 ^ 32)
          ((0 + parse_octal (subspan ((buildHeader (strBytes "o") 600 55).take
            Config.TAR_BLOCK_SIZE) Config.TAR_SIZE_OFFSET Config.TAR_SIZE_LENGTH)) %
            2 ^ 64)).err⟩ :=
  extract_other_type_consumes_quota [] 0 (buildHeader (strBytes "o") 600 55) 0 0
    (strBytes "o") [] [[111]]
    (by decide) (by decide) (by decide) (by decide) (by decide) (by decide) (by decide)
    (by decide) (by decide) (by decide) (by decide) (by decide) (by decide) (by decide)

/-- Gzipped archive of the round-trip scenario: a directory entry named
`a/` (type flag `'5'`, as tar writes directories) followed by a regular
file `a/b`. -/
def dirSlashArchive : List Nat :=
  buildHeader (strBytes "a/") 0 53 ++ buildHeader (strBytes "a/b") 0 48

set_option maxRecDepth 100000 in
set_option maxHeartbeats 4000000 in
/-- C5 (code bug): the round-trip fails on the code.  The directory entry
name `a/` iterates (as `std::filesystem::path`) into the components
`["a", ""]`: the trailing separator contributes an empty final component,
`is_safe_filename` rejects the empty component, so `sanitize_path`
rejects `a/` and `extract` returns `PathTraversalDetected` at the very
first entry, materializing nothing — the archive of the round-trip
scenario does not extract. -/
theorem extract_rejects_trailing_slash_dir :
    (strBytes "a/").splitOn 47 = [strBytes "a", []] ∧
    is_safe_filename [] = false ∧
    sanitize_path [] (strBytes "a/") = none ∧
    sanitize_path [] (strBytes "a/b") = some [strBytes "a", strBytes "b"] ∧
    TgzExtractor.extract [] dirSlashArchive =
      ⟨[], [(1, 0)], some .PathTraversalDetected⟩ := by
  exact ⟨by decide, by decide, by decide, by decide, by decide⟩
end Calyx
